import Mathlib

/-!
# Verification of the pycpio CPIO archive codec

A shallow embedding of the `pycpio` repository's CPIO ("newc"/ASCII-hex)
archive reader and writer, together with theorems checking the
natural-language specification against the code.

Bytes are modelled as `Nat` (values of interest are < 256), byte streams as
`List Nat`.  The parts of the repository present under `src/` (the stream
reader `pycpio/reader/reader.py`, the stream writer `pycpio/writer/writer.py`,
the legacy reader `pycpio/cpio.py`, the entry model `pycpio/cpio/data.py` and
`pycpio/cpio/dir.py`) are translated faithfully, including their control flow
on error paths.  The header codec (`pycpio/header.py`), the `pad_cpio` padding
function and the mode-bit tables (`pycpio/masks.py`) are not part of the
source tree; they are modelled from the specification where noted.
-/

set_option maxRecDepth 100000

namespace Pycpio

/-- Modelled from the spec: `pad_cpio` (§4.2, source module `pycpio/cpio`
is absent from the tree).  Number of zero bytes bringing `n` to a 4-byte
boundary: `(4 - n % 4) % 4`. -/
def pad_cpio (n : Nat) : Nat := (4 - n % 4) % 4

/-- Modelled from the spec: ASCII code of the lowercase hex digit for
`d < 16` (header codec §4.1, `pycpio/header.py` absent from the tree). -/
def hexDigitChar (d : Nat) : Nat := if d < 10 then 48 + d else 87 + d

/-- Modelled from the spec: value of an ASCII hex digit, accepting the
digit characters Python's `int(_, 16)` accepts (lower and upper case). -/
def hexDigitVal (c : Nat) : Option Nat :=
  if 48 ≤ c ∧ c ≤ 57 then some (c - 48)
  else if 97 ≤ c ∧ c ≤ 102 then some (c - 87)
  else if 65 ≤ c ∧ c ≤ 70 then some (c - 55)
  else none

/-- Modelled from the spec: big-endian rendering of `n % 16^k` as `k`
ASCII hex digits. -/
def toHexN : Nat → Nat → List Nat
  | 0, _ => []
  | k + 1, n => toHexN k (n / 16) ++ [hexDigitChar (n % 16)]

/-- Modelled from the spec: every numeric header field is exactly 8 hex
ASCII characters (§3). -/
def hex8 (n : Nat) : List Nat := toHexN 8 n

/-- Modelled from the spec: accumulator-style parse of a run of ASCII hex
digits, as `int(bytes, 16)` does. -/
def parseHexAux : Nat → List Nat → Option Nat
  | a, [] => some a
  | a, c :: cs =>
    match hexDigitVal c with
    | some d => parseHexAux (a * 16 + d) cs
    | none => none

/-- The entry kinds of `pycpio/masks.py` `CPIOModes` (module absent from the
tree; the set of kinds follows spec §4.1/§4.3). -/
inductive CPIOMode where
  | File | Dir | Symlink | CharDev | Block | FIFO | Socket
  deriving DecidableEq, Repr

/-- Modelled from the spec: mode-type decoding — "the high bits of `mode`
select one of {regular file, directory, symlink, char device, block device,
FIFO, socket}" and the trailer "has no type bits set" (§4.1).  The type
nibble is `mode` bits 12-15 (the S_IFMT field). -/
def modeTypeOf (m : Nat) : Option CPIOMode :=
  match m / 4096 % 16 with
  | 0 => none
  | 8 => some .File
  | 4 => some .Dir
  | 10 => some .Symlink
  | 2 => some .CharDev
  | 6 => some .Block
  | 1 => some .FIFO
  | 12 => some .Socket
  | _ => none

/-- Whether the mode's type nibble is one of the recognized patterns (zero,
the trailer's pattern, included); any other pattern makes header decoding
fail (`UnknownEntryTypeError`, spec §4.1). -/
def modeBitsKnown (m : Nat) : Bool :=
  (m / 4096 % 16) ∈ [0, 1, 2, 4, 6, 8, 10, 12]

/-- The CPIO header record: the 13 numeric newc fields (magic is fixed)
plus the name, held as its byte string without the terminating NUL.
`namesize` on the wire is `name.length + 1`.  Field set from spec §3/§6
(`pycpio/header.py` is absent from the tree). -/
structure CPIOHeader where
  ino : Nat
  mode : Nat
  uid : Nat
  gid : Nat
  nlink : Nat
  mtime : Nat
  filesize : Nat
  devmajor : Nat
  devminor : Nat
  rdevmajor : Nat
  rdevminor : Nat
  namesize : Nat
  check : Nat
  name : List Nat
  deriving DecidableEq, Repr

/-- ASCII bytes of the newc magic `"070701"`. -/
def magicBytes : List Nat := [48, 55, 48, 55, 48, 49]

/-- ASCII bytes of `"TRAILER!!!"`. -/
def trailerName : List Nat := [84, 82, 65, 73, 76, 69, 82, 33, 33, 33]

/-- The 13 numeric field values of a header, in wire order (spec §6):
ino, mode, uid, gid, nlink, mtime, filesize, devmajor, devminor,
rdevmajor, rdevminor, namesize, check. -/
def fieldVals (h : CPIOHeader) : List Nat :=
  [h.ino, h.mode, h.uid, h.gid, h.nlink, h.mtime, h.filesize,
   h.devmajor, h.devminor, h.rdevmajor, h.rdevminor, h.namesize, h.check]

/-- Concatenation of the 8-hex-digit renderings of a list of values. -/
def hexConcat : List Nat → List Nat
  | [] => []
  | v :: vs => hex8 v ++ hexConcat vs

/-- The fixed 110-byte part of an encoded header: magic plus the 13
numeric fields as 8 hex ASCII characters each. -/
def hdr110 (h : CPIOHeader) : List Nat := magicBytes ++ hexConcat (fieldVals h)

/-- Modelled from the spec: `bytes(CPIOHeader)` — the 110-byte fixed
header, then the name with its terminating NUL, padded with zero bytes so
the combined header+name length is 4-byte aligned (§3, §4.1
`decode_name`). -/
def headerBytes (h : CPIOHeader) : List Nat :=
  hdr110 h ++ h.name ++ [0] ++ List.replicate (pad_cpio (110 + h.name.length + 1)) 0

/-- Errors of header decoding (spec §7; Python raises `ValueError`
subclasses for each). -/
inductive HdrErr where
  | badLength | badMagic | badHex | unknownType | truncated
  deriving DecidableEq, Repr

/-- Sequential parse of `k` consecutive 8-hex-character fields, returning
the parsed values and the remaining bytes. -/
def parseFieldsN : Nat → List Nat → Option (List Nat × List Nat)
  | 0, bs => some ([], bs)
  | k + 1, bs =>
    match parseHexAux 0 (bs.take 8) with
    | some v =>
      match parseFieldsN k (bs.drop 8) with
      | some (vs, rest) => some (v :: vs, rest)
      | none => none
    | none => none

/-- Modelled from the spec: `CPIOHeader(header_data)` decoding of the
110-byte fixed header (§4.1 `decode`): checks the length and the magic,
parses each of the 13 fields as 8 hex ASCII characters, and rejects an
unrecognized mode-type bit pattern (`UnknownEntryTypeError`; the zero
pattern of the trailer is accepted).  The name is not part of these bytes
and is left empty. -/
def parseHeader110 (bs : List Nat) : Except HdrErr CPIOHeader :=
  if bs.length ≠ 110 then .error .badLength
  else if bs.take 6 ≠ magicBytes then .error .badMagic
  else
    match parseFieldsN 13 (bs.drop 6) with
    | some ([ino, mode, uid, gid, nlink, mtime, filesize, devmajor,
             devminor, rdevmajor, rdevminor, namesize, check], _) =>
      if modeBitsKnown mode then
        .ok ⟨ino, mode, uid, gid, nlink, mtime, filesize, devmajor,
             devminor, rdevmajor, rdevminor, namesize, check, []⟩
      else .error .unknownType
    | _ => .error .badHex

/-- `CPIOHeader.get_name`: the recorded name bytes with trailing NULs
stripped (spec §4.1 `decode_name`). -/
def stripTrailingZeros (l : List Nat) : List Nat :=
  (l.reverse.dropWhile (· == 0)).reverse

/-- All numeric fields of the header fit in 32 bits (8 hex digits), the
name contains no NUL byte, and `namesize` is consistent with the name. -/
def WFHeader (h : CPIOHeader) : Prop :=
  (∀ v ∈ fieldVals h, v < 4294967296) ∧ h.namesize = h.name.length + 1 ∧ 0 ∉ h.name

instance : DecidablePred WFHeader := fun h => by
  unfold WFHeader; infer_instance

/-- A CPIO entry: a header paired with its payload bytes
(`pycpio/cpio/data.py` `CPIOData`). -/
structure CPIOData where
  header : CPIOHeader
  data : List Nat
  deriving DecidableEq, Repr

/-- `CPIOData.__setattr__` for `data` (`pycpio/cpio/data.py` lines
206-212): assigning the payload also sets `header.filesize` to the
payload's byte length. -/
def CPIOData.setData (e : CPIOData) (d : List Nat) : CPIOData :=
  { e with data := d, header := { e.header with filesize := d.length } }

/-- `CPIOData.__init__` (`pycpio/cpio/data.py` lines 214-217): stores the
header, then assigns `self.data`, which runs the `__setattr__` side effect
updating `header.filesize`. -/
def cpioDataInit (data : List Nat) (header : CPIOHeader) : CPIOData :=
  CPIOData.setData { header := header, data := [] } data

/-- `CPIO_Dir.__init__` on the decode path, where no `path`/`name` keyword
is supplied (`pycpio/cpio/dir.py` lines 15-25): it only runs the base
`CPIOData.__init__`; the supplied payload is kept as-is. -/
def cpioDirInit (data : List Nat) (header : CPIOHeader) : CPIOData :=
  cpioDataInit data header

/-- Error raised by `CPIOData.get_subtype`'s fall-through branch
(`NotImplementedError`, `pycpio/cpio/data.py` line 204). -/
inductive SubErr where
  | notImplemented
  deriving DecidableEq, Repr

/-- `CPIOData.get_subtype` (`pycpio/cpio/data.py` lines 172-204): chooses
the entry class from the header's mode type.  `CPIO_File`, `CPIO_Symlink`
and `CPIO_CharDev` are absent from the tree; modelled from the spec, on
the decode path (no `path` keyword) they keep the header and the supplied
payload like the base class.  `CPIO_Dir` is translated from source.  Mode
kinds outside the four handled names raise `NotImplementedError`. -/
def getSubtype (data : List Nat) (header : CPIOHeader) : Except SubErr CPIOData :=
  match modeTypeOf header.mode with
  | none => .ok (cpioDataInit data header)
  | some .File => .ok (cpioDataInit data header)
  | some .Symlink => .ok (cpioDataInit data header)
  | some .CharDev => .ok (cpioDataInit data header)
  | some .Dir => .ok (cpioDirInit data header)
  | some _ => .error .notImplemented

/-- `bytes(CPIOData)` (`pycpio/cpio/data.py` lines 224-226): the header
bytes followed by the payload. -/
def entryBytes (e : CPIOData) : List Nat := headerBytes e.header ++ e.data

/-- One iteration of `CPIOWriter.write` (`pycpio/writer/writer.py` lines
36-46): the entry's bytes followed by `pad_cpio` zero bytes. -/
def writeChunk (e : CPIOData) : List Nat :=
  entryBytes e ++ List.replicate (pad_cpio (entryBytes e).length) 0

/-- `CPIOWriter.write` over an iterable (`pycpio/writer/writer.py` lines
28-47): each entry's padded bytes are appended to the stream in order. -/
def writeMany (es : List CPIOData) : List Nat :=
  match es with
  | [] => []
  | e :: rest => writeChunk e ++ writeMany rest

/-- The trailer header synthesized by `CPIOWriter.close`
(`pycpio/writer/writer.py` lines 53-59): `CPIOHeader(name="TRAILER!!!")`.
Modelled from the spec for the absent `pycpio/header.py`: all numeric
fields default to zero (trailer: filesize 0, no mode-type bits, §3),
`namesize` covers the NUL. -/
def trailerHeader : CPIOHeader :=
  { ino := 0, mode := 0, uid := 0, gid := 0, nlink := 0, mtime := 0,
    filesize := 0, devmajor := 0, devminor := 0, rdevmajor := 0,
    rdevminor := 0, namesize := 11, check := 0, name := trailerName }

/-- The bytes `CPIOWriter.close` writes: the padded trailer header record
(`write` is called on a bare `CPIOHeader`, whose bytes are the header
record with no payload). -/
def trailerChunk : List Nat :=
  headerBytes trailerHeader ++
    List.replicate (pad_cpio (headerBytes trailerHeader).length) 0

/-- A complete writer session against a fresh stream: `write(entries)`
followed by `close()` (`pycpio/writer/writer.py`; `close` writes the
trailer unconditionally and then only optionally closes the sink). -/
def writerSession (es : List CPIOData) : List Nat :=
  writeMany es ++ trailerChunk

/-- The error named by the specification for writes on a closed writer.
No code path in `pycpio/writer/writer.py` raises it (or any other
exception); it appears here only so that fallibility of `write` can be
stated. -/
inductive WriterErr where
  | writerClosed
  deriving DecidableEq, Repr

/-- `CPIOWriter.write` of a single entry as seen by a caller: the writer
holds only its output stream (there is no closed flag in
`pycpio/writer/writer.py`), appends the padded entry bytes and returns the
byte count.  The `Except` codomain records that the code has no failure
path. -/
def writerWrite (out : List Nat) (e : CPIOData) :
    Except WriterErr (List Nat × Nat) :=
  .ok (out ++ writeChunk e, (writeChunk e).length)

/-- `CPIOWriter.close` (`pycpio/writer/writer.py` lines 49-62) with
`close_stream=False`: writes the padded trailer record; nothing else about
the writer's state changes. -/
def writerClose (out : List Nat) : List Nat := out ++ trailerChunk

/-- Reader state: the not-yet-consumed stream bytes and `self.offset`
(`pycpio/reader/reader.py`). -/
structure RState where
  s : List Nat
  off : Nat
  deriving DecidableEq, Repr

/-- Result of a bounded read: success, `EOFError`, or the read loop
spinning forever. -/
inductive ReadRes (α : Type) where
  | ok : α → ReadRes α
  | eof : RState → ReadRes α
  | div : ReadRes α
  deriving DecidableEq, Repr

/-- Result of one iteration of the `while read < num_bytes` loop body of
`CPIOReader._read_bytes`, tracked with fuel. -/
inductive LoopRes where
  | done : List Nat → List Nat → LoopRes
  | eofErr : LoopRes
  | fuelOut : LoopRes
  deriving DecidableEq, Repr

/-- The `while read < num_bytes` loop of `CPIOReader._read_bytes`
(`pycpio/reader/reader.py` lines 27-34), translated literally with fuel:
`data += stream.read(num_bytes - read)` (a bounded read returns at most
what remains), then `_read = len(data)` — the cumulative length, not the
size of the last read — `if not _read: raise EOFError`, `read = _read`. -/
def readBytesLoop : Nat → Nat → List Nat → List Nat → LoopRes
  | 0, _, _, _ => .fuelOut
  | fuel + 1, n, data, stream =>
    if data.length ≥ n then .done data stream
    else
      let chunk := stream.take (n - data.length)
      let data' := data ++ chunk
      if data'.length = 0 then .eofErr
      else readBytesLoop fuel n data' (stream.drop (n - data.length))

/-- `CPIOReader._read_bytes(num_bytes)` summarized over a list-backed
stream: with at least `n` bytes available the loop returns them in one
pass; on an exhausted stream it raises `EOFError`; with `0 < remaining <
n` bytes it never terminates (the cumulative `len(data)` is never zero, so
the EOF test never fires — established against `readBytesLoop` in the
theorems below).  The padding flag of the source only logs and is
omitted. -/
def readBytes (n : Nat) (st : RState) : ReadRes (List Nat × RState) :=
  if n = 0 then .ok ([], st)
  else if st.s.length ≥ n then
    .ok (st.s.take n, ⟨st.s.drop n, st.off + n⟩)
  else if st.s.length = 0 then .eof st
  else .div

/-- `CPIOReader.read_header` (`pycpio/reader/reader.py` lines 49-72):
reads 110 bytes; a header that fails to decode is caught (`except
ValueError`), logged and turned into `None`; otherwise the `namesize` name
bytes are read (padding only logged, not consumed), trailing NULs are
stripped off the name, and a header whose mode type is empty is the
trailer, returned as `None`. -/
def readHeader (st : RState) : ReadRes (Option CPIOHeader × RState) :=
  match readBytes 110 st with
  | .ok (hdrData, st1) =>
    match parseHeader110 hdrData with
    | .error _ => .ok (none, st1)
    | .ok raw =>
      match readBytes raw.namesize st1 with
      | .ok (nameData, st2) =>
        let h := { raw with name := stripTrailingZeros nameData }
        if modeTypeOf h.mode = none then .ok (none, st2)
        else .ok (some h, st2)
      | .eof st2 => .eof st2
      | .div => .div
  | .eof st1 => .eof st1
  | .div => .div

/-- `CPIOReader.read_data` (`pycpio/reader/reader.py` lines 74-76): reads
`filesize` bytes (padding only logged, not consumed). -/
def readData (h : CPIOHeader) (st : RState) : ReadRes (List Nat × RState) :=
  readBytes h.filesize st

/-- Outcome of the `read_entry` generator loop. -/
inductive ROutcome where
  | finished : ROutcome
  | raised : SubErr → ROutcome
  | diverged : ROutcome
  | fuelOut : ROutcome
  deriving DecidableEq, Repr

/-- `CPIOReader.read_entry` with the default `stop_at_trailer=True`
(`pycpio/reader/reader.py` lines 78-94), with fuel: a decoded header
yields `CPIOData.get_subtype(read_data(header), header)` and loops; `None`
(trailer or swallowed decode error) breaks; `EOFError` is caught, a
warning logged, and the loop continues with the unchanged exhausted
stream, so it can only run out of fuel; `NotImplementedError` from
`get_subtype` propagates. -/
def readEntries : Nat → RState → List CPIOData × ROutcome
  | 0, _ => ([], .fuelOut)
  | fuel + 1, st =>
    match readHeader st with
    | .ok (some h, st1) =>
      match readData h st1 with
      | .ok (d, st2) =>
        match getSubtype d h with
        | .ok e =>
          let r := readEntries fuel st2
          (e :: r.1, r.2)
        | .error er => ([], .raised er)
      | .eof st2 => readEntries fuel st2
      | .div => ([], .diverged)
    | .ok (none, _) => ([], .finished)
    | .eof st1 => readEntries fuel st1
    | .div => ([], .diverged)

/-- How a `PyCPIO.read_cpio` run ends (`pycpio/cpio.py`): the loop exits
normally (trailer found or offset reached the end), logs
"Reached end of file." for an all-zero sub-110-byte remainder, warns about
non-zero data in such a remainder, or an exception propagates. -/
inductive OldOutcome where
  | normal : OldOutcome
  | eofInfo : OldOutcome
  | trailingWarn : OldOutcome
  | raised : HdrErr → OldOutcome
  | fuelOut : OldOutcome
  deriving DecidableEq, Repr

/-- `PyCPIO.read_cpio` (`pycpio/cpio.py` lines 31-56), the loop over the
in-memory bytes, carried as the remaining suffix plus the accumulated
`self.files`.  `CPIOEntry` (module absent from the tree) is modelled from
the spec: decoding the 110-byte slice is `parseHeader110` (raising on a
short slice), `get_name` strips NULs and returns `namesize` plus the bytes
aligning `110 + namesize` to 4, `read_contents` returns `filesize` plus
the bytes aligning `filesize` to 4, and a short name/payload slice raises
`TruncatedStreamError`.  Faithful to the source's control flow: the entry
is appended to `files` only at the bottom of the loop, after the trailer
check and after the fewer-than-110-bytes-remaining check have both not
fired. -/
def readOld : Nat → List Nat → List CPIOData → List CPIOData × OldOutcome
  | 0, _, files => (files, .fuelOut)
  | fuel + 1, remaining, files =>
    if remaining.length = 0 then (files, .normal)
    else
      match parseHeader110 (remaining.take 110) with
      | .error e => (files, .raised e)
      | .ok raw =>
        let r1 := remaining.drop 110
        if r1.length < raw.namesize then (files, .raised .truncated)
        else
          let name := stripTrailingZeros (r1.take raw.namesize)
          let r2 := r1.drop (raw.namesize + pad_cpio (110 + raw.namesize))
          if raw.filesize ≠ 0 ∧ r2.length < raw.filesize then
            (files, .raised .truncated)
          else
            let fd := if raw.filesize ≠ 0 then r2.take raw.filesize else []
            let r3 := if raw.filesize ≠ 0 then
                r2.drop (raw.filesize + pad_cpio raw.filesize)
              else r2
            let entry : CPIOData := ⟨{ raw with name := name }, fd⟩
            if name = trailerName then (files, .normal)
            else if r3.length < 110 then
              if r3.all (· == 0) then (files, .eofInfo)
              else (files, .trailingWarn)
            else readOld fuel r3 (files ++ [entry])

/-- Well-formedness of an entry for encoding: well-formed header, the
`filesize` field agreeing with the payload (the invariant `__setattr__`
maintains), a recognized non-empty set of mode-type bits is not required —
only that the bit pattern is one the decoder accepts — and a name that is
not the trailer sentinel. -/
def WFEntry (e : CPIOData) : Prop :=
  WFHeader e.header ∧ e.header.filesize = e.data.length ∧
    modeBitsKnown e.header.mode ∧ e.header.name ≠ trailerName

instance : DecidablePred WFEntry := fun e => by
  unfold WFEntry; infer_instance

/-- The stream offset `CPIOReader` has reached once `read_header`
returns a header, i.e. where the next `read_data` will start. -/
def offsetAfterHeader (st : RState) : Option Nat :=
  match readHeader st with
  | .ok (_, st1) => some st1.off
  | _ => none

/-- A regular-file entry named `"abc"` with payload `b"XY"`: mode
`0o100644`, `namesize` 4 (the name plus its NUL), `filesize` 2.  Because
`110 + 4` is not a multiple of 4, its encoding carries two alignment
padding bytes between name and payload. -/
def abcHeader : CPIOHeader :=
  { ino := 1, mode := 33188, uid := 0, gid := 0, nlink := 1, mtime := 0,
    filesize := 2, devmajor := 0, devminor := 0, rdevmajor := 0,
    rdevminor := 0, namesize := 4, check := 0, name := [97, 98, 99] }

/-- The entry `("abc", b"XY")`. -/
def abcEntry : CPIOData := { header := abcHeader, data := [88, 89] }

/-- A directory header (mode `0o040755`), used to probe `CPIO_Dir`'s
construction. -/
def dirHeader : CPIOHeader :=
  { ino := 2, mode := 16877, uid := 0, gid := 0, nlink := 2, mtime := 0,
    filesize := 0, devmajor := 0, devminor := 0, rdevmajor := 0,
    rdevminor := 0, namesize := 2, check := 0, name := [100] }

/-- A header whose mode has no type bits set (the trailer pattern) but
whose name field will hold `"FOO"`, not `"TRAILER!!!"`. -/
def fooRaw : CPIOHeader :=
  { ino := 0, mode := 0, uid := 0, gid := 0, nlink := 0, mtime := 0,
    filesize := 0, devmajor := 0, devminor := 0, rdevmajor := 0,
    rdevminor := 0, namesize := 4, check := 0, name := [] }

theorem pad_cpio_lt_four (n : Nat) : pad_cpio n < 4 := by
  unfold pad_cpio; omega

theorem pad_cpio_aligns (n : Nat) : (n + pad_cpio n) % 4 = 0 := by
  unfold pad_cpio; omega

theorem pad_cpio_add_aligned {a : Nat} (b : Nat) (h : a % 4 = 0) :
    pad_cpio (a + b) = pad_cpio b := by
  unfold pad_cpio; omega

theorem toHexN_length (k n : Nat) : (toHexN k n).length = k := by
  induction k generalizing n with
  | zero => rfl
  | succ k ih => simp [toHexN, ih]

theorem hex8_length (n : Nat) : (hex8 n).length = 8 := toHexN_length 8 n

theorem hexDigitVal_hexDigitChar {d : Nat} (h : d < 16) :
    hexDigitVal (hexDigitChar d) = some d := by
  unfold hexDigitChar hexDigitVal
  by_cases h10 : d < 10
  · simp only [if_pos h10]
    rw [if_pos (by omega)]
    simp only [Option.some.injEq]
    omega
  · simp only [if_neg h10]
    rw [if_neg (by omega), if_pos (by omega)]
    simp only [Option.some.injEq]
    omega

theorem parseHexAux_append (a : Nat) (xs ys : List Nat) :
    parseHexAux a (xs ++ ys) =
      match parseHexAux a xs with
      | some b => parseHexAux b ys
      | none => none := by
  induction xs generalizing a with
  | nil => simp [parseHexAux]
  | cons c cs ih =>
    simp only [List.cons_append, parseHexAux]
    cases hexDigitVal c with
    | some d => exact ih (a * 16 + d)
    | none => rfl

theorem parseHexAux_toHexN (k : Nat) :
    ∀ a n, parseHexAux a (toHexN k n) = some (a * 16 ^ k + n % 16 ^ k) := by
  induction k with
  | zero => intro a n; simp [toHexN, parseHexAux, Nat.mod_one]
  | succ k ih =>
    intro a n
    rw [toHexN, parseHexAux_append, ih a (n / 16)]
    simp only [parseHexAux, hexDigitVal_hexDigitChar (Nat.mod_lt n (by omega)),
      Option.some.injEq]
    have h1 : 16 ^ (k + 1) = 16 * 16 ^ k := by ring
    have h2 : n % (16 * 16 ^ k) = n % 16 + 16 * (n / 16 % 16 ^ k) := Nat.mod_mul
    rw [h1, h2]
    ring

theorem parseHexAux_hex8 {n : Nat} (h : n < 4294967296) :
    parseHexAux 0 (hex8 n) = some n := by
  have := parseHexAux_toHexN 8 0 n
  rw [hex8, this, Nat.zero_mul, Nat.zero_add, Nat.mod_eq_of_lt (by norm_num; omega)]

theorem hexConcat_length (vs : List Nat) :
    (hexConcat vs).length = 8 * vs.length := by
  induction vs with
  | nil => rfl
  | cons v vs ih =>
    simp [hexConcat, List.length_append, hex8_length, ih]
    ring

theorem hdr110_length (h : CPIOHeader) : (hdr110 h).length = 110 := by
  simp [hdr110, magicBytes, List.length_append, hexConcat_length, fieldVals]

theorem stripTrailingZeros_append_zero {l : List Nat} (h : 0 ∉ l) :
    stripTrailingZeros (l ++ [0]) = l := by
  unfold stripTrailingZeros
  have h1 : (l ++ [0]).reverse = 0 :: l.reverse := by simp
  rw [h1, List.dropWhile_cons]
  simp only [beq_self_eq_true, if_true]
  cases hl : l.reverse with
  | nil =>
    have h2 : l = [] := List.reverse_eq_nil_iff.mp hl
    simp [h2]
  | cons a as =>
    have ha : a ∈ l := by
      have : a ∈ l.reverse := hl ▸ List.mem_cons_self a as
      simpa using this
    have ha0 : (a == 0) = false := by
      simp only [beq_eq_false_iff_ne, ne_eq]
      exact fun e => h (e ▸ ha)
    rw [List.dropWhile_cons]
    simp only [ha0, Bool.false_eq_true, if_false]
    rw [← hl, List.reverse_reverse]

theorem parseFieldsN_hexConcat (vs : List Nat) (bs : List Nat)
    (hb : ∀ v ∈ vs, v < 4294967296) :
    parseFieldsN vs.length (hexConcat vs ++ bs) = some (vs, bs) := by
  induction vs with
  | nil => simp [hexConcat, parseFieldsN]
  | cons v vs ih =>
    have hv : v < 4294967296 := hb v (List.mem_cons_self v vs)
    have hvs : ∀ w ∈ vs, w < 4294967296 := fun w hw => hb w (List.mem_cons_of_mem v hw)
    simp only [List.length_cons, hexConcat, List.append_assoc, parseFieldsN]
    rw [List.take_left' (hex8_length v), List.drop_left' (hex8_length v),
      parseHexAux_hex8 hv, ih hvs]

theorem parseHeader110_hdr110 {h : CPIOHeader} (hwf : WFHeader h)
    (hmode : modeBitsKnown h.mode) :
    parseHeader110 (hdr110 h) = .ok { h with name := [] } := by
  obtain ⟨hb, -, -⟩ := hwf
  unfold parseHeader110
  rw [if_neg (by simp [hdr110_length])]
  unfold hdr110
  rw [List.take_left' (by rfl), if_neg (by simp), List.drop_left' (by rfl)]
  have h13 : (fieldVals h).length = 13 := rfl
  have := parseFieldsN_hexConcat (fieldVals h) [] hb
  rw [h13, List.append_nil] at this
  rw [this]
  simp only [fieldVals] at *
  rw [if_pos hmode]

theorem parseHeader110_ok_length {bs : List Nat} {h : CPIOHeader}
    (hok : parseHeader110 bs = .ok h) : bs.length = 110 := by
  unfold parseHeader110 at hok
  by_cases hl : bs.length = 110
  · exact hl
  · rw [if_pos hl] at hok; exact absurd hok (by simp)

/-- C2: after all entries are written, `CPIOWriter.close` synthesizes and
writes the trailer record unconditionally: the output of every completed
write session is the written entries followed by the trailer chunk, whose
header carries the name `"TRAILER!!!"` and filesize 0, whose record is a
bare header with no payload bytes, and whose length is 4-byte aligned
(124 bytes); decoding just that chunk stops cleanly with no entries. -/
theorem c2_close_always_writes_trailer (es : List CPIOData) :
    writerSession es = writeMany es ++ trailerChunk ∧
    trailerChunk = headerBytes trailerHeader ++
      List.replicate (pad_cpio (headerBytes trailerHeader).length) 0 ∧
    trailerHeader.name = trailerName ∧
    trailerHeader.filesize = 0 ∧
    trailerChunk.length % 4 = 0 ∧
    readOld 2 trailerChunk [] = ([], .normal) := by
  refine ⟨rfl, rfl, rfl, rfl, by decide, by decide⟩

/-- C8: assigning an entry's payload always re-derives `header.filesize`
as the payload's byte length (`CPIOData.__setattr__`), and the constructor
routes through the same assignment, so no construction or payload update
leaves `filesize` stale. -/
theorem c8_filesize_tracks_payload (e : CPIOData) (d : List Nat) (h : CPIOHeader) :
    (e.setData d).header.filesize = (e.setData d).data.length ∧
    (cpioDataInit d h).header.filesize = (cpioDataInit d h).data.length := ⟨rfl, rfl⟩

/-- C7 counterexample: the claim says a `write()` after `close()` fails
with `WriterClosedError`; on the code, writing the entry `("abc", b"XY")`
to a freshly closed writer succeeds — `CPIOWriter` keeps no closed flag
and `write` has no failure path. -/
theorem c7_counterexample :
    writerWrite (writerClose []) abcEntry =
      .ok (writerClose [] ++ writeChunk abcEntry, (writeChunk abcEntry).length) ∧
    writerWrite (writerClose []) abcEntry ≠ .error .writerClosed := by
  exact ⟨rfl, by simp [writerWrite]⟩

/-- C7 amended: `close()` writes the trailer, but a later `write()` is not
rejected — there is no closed check and no `WriterClosedError` in the
code; the write succeeds and appends the entry's padded bytes after the
trailer. -/
theorem c7_amended_write_after_close_succeeds (out : List Nat) (e : CPIOData) :
    writerWrite (writerClose out) e =
      .ok (out ++ trailerChunk ++ writeChunk e, (writeChunk e).length) := by
  simp [writerWrite, writerClose]

/-- C6 counterexample: the claim says a directory entry constructed with a
non-empty payload still reports `filesize = 0` and an empty payload; on
the code, dispatching payload `[7]` with a directory-mode header through
`CPIOData.get_subtype` builds a `CPIO_Dir` that keeps the payload and
reports `filesize = 1`. -/
theorem c6_counterexample :
    modeTypeOf dirHeader.mode = some .Dir ∧
    getSubtype [7] dirHeader = .ok (cpioDirInit [7] dirHeader) ∧
    (cpioDirInit [7] dirHeader).header.filesize ≠ 0 ∧
    (cpioDirInit [7] dirHeader).data ≠ [] := by
  refine ⟨rfl, rfl, by decide, by decide⟩

/-- C6 amended: `CPIO_Dir.__init__` only runs the base constructor on the
decode path, so a directory entry keeps whatever payload it is constructed
with, and its `filesize` is the payload's length — zero exactly when the
supplied payload is empty, not regardless of it. -/
theorem c6_amended_dir_keeps_payload (d : List Nat) (h : CPIOHeader)
    (hdir : modeTypeOf h.mode = some .Dir) :
    getSubtype d h = .ok (cpioDirInit d h) ∧
    (cpioDirInit d h).header.filesize = d.length ∧
    (cpioDirInit d h).data = d := by
  refine ⟨?_, rfl, rfl⟩
  unfold getSubtype
  rw [hdir]

/-- C6 amended, witnessed at payload `[7]` and a directory header. -/
theorem c6_witness :
    modeTypeOf dirHeader.mode = some .Dir ∧
    (getSubtype [7] dirHeader = .ok (cpioDirInit [7] dirHeader) ∧
      (cpioDirInit [7] dirHeader).header.filesize = [7].length ∧
      (cpioDirInit [7] dirHeader).data = [7]) :=
  ⟨by decide, c6_amended_dir_keeps_payload [7] dirHeader (by decide)⟩

/-- C3: the claim says the reader skips the alignment padding after the
name (and after the payload) so the next read starts 4-byte aligned.  On
the code, `_read_bytes(..., pad=True)` only computes and logs `pad_cpio`
without consuming anything: after reading the header and 4-byte name of
the entry `("abc", b"XY")` the reader sits at offset 114, which is not
4-byte aligned — the payload actually starts at offset 116, since the
encoded header+name is 116 bytes long. -/
theorem c3_padding_not_skipped :
    offsetAfterHeader ⟨writerSession [abcEntry], 0⟩ = some 114 ∧
    114 % 4 = 2 ∧
    (headerBytes abcEntry.header).length = 116 := by
  refine ⟨by decide, by decide, by decide⟩

/-- C4: the claim says a stream holding only 109 bytes where a 110-byte
header is expected raises a truncation error.  On the code,
`_read_bytes`'s loop sets `_read = len(data)` — the cumulative length, not
the last read's size — so after the short read the loop re-reads an empty
string forever and never reaches the EOF test: for every amount of fuel
the literal loop translation is still running, the summarized read
diverges, and the reader's iteration diverges instead of raising. -/
theorem c4_truncated_header_loops_forever :
    (∀ fuel, readBytesLoop fuel 110 [] (List.replicate 109 0) = .fuelOut) ∧
    readBytes 110 ⟨List.replicate 109 0, 0⟩ = .div ∧
    readEntries 1 ⟨List.replicate 109 0, 0⟩ = ([], .diverged) := by
  refine ⟨?_, by decide, by decide⟩
  have aux : ∀ fuel (data : List Nat), data.length = 109 →
      readBytesLoop fuel 110 data [] = .fuelOut := by
    intro fuel
    induction fuel with
    | zero => intro data _; rfl
    | succ f ih =>
      intro data hlen
      rw [readBytesLoop]
      rw [if_neg (by omega)]
      simp only [List.take_nil, List.append_nil, List.drop_nil]
      rw [if_neg (by omega)]
      exact ih data hlen
  intro fuel
  cases fuel with
  | zero => rfl
  | succ f =>
    rw [readBytesLoop]
    rw [if_neg (by simp)]
    rw [if_neg (by simp)]
    simp only [List.nil_append]
    have h1 : (List.replicate 109 (0 : Nat)).take (110 - ([] : List Nat).length) =
        List.replicate 109 0 := by
      apply List.take_of_length_le; simp
    have h2 : (List.replicate 109 (0 : Nat)).drop (110 - ([] : List Nat).length) = [] := by
      apply List.drop_eq_nil_of_le; simp
    rw [h1, h2]
    exact aux f _ (by simp)

/-- C1: the claim says writing entries and decoding the result yields the
entries back exactly.  On the code this fails: for the single entry
`("abc", b"XY")` the writer emits two alignment padding bytes between name
and payload, the reader never consumes them, so the decoded entry's
payload is the padding `[0, 0]` instead of `b"XY" = [88, 89]`, and
round-tripping does not reproduce the written entries. -/
theorem c1_roundtrip_fails :
    readEntries 4 ⟨writerSession [abcEntry], 0⟩ ≠ ([abcEntry], .finished) ∧
    (readEntries 4 ⟨writerSession [abcEntry], 0⟩).1.map CPIOData.data = [[0, 0]] ∧
    abcEntry.data = [88, 89] := by
  refine ⟨by decide, by decide, rfl⟩

theorem readBytes_append {n : Nat} (hn : n ≠ 0) (a b : List Nat) (off : Nat)
    (ha : a.length = n) :
    readBytes n ⟨a ++ b, off⟩ = .ok (a, ⟨b, off + n⟩) := by
  unfold readBytes
  rw [if_neg hn, if_pos (by simp [List.length_append, ha]),
    List.take_left' ha, List.drop_left' ha]

theorem readBytes_ok_of_le {n : Nat} {s : List Nat} (off : Nat) (h : n ≤ s.length) :
    readBytes n ⟨s, off⟩ =
      if n = 0 then .ok ([], ⟨s, off⟩)
      else .ok (s.take n, ⟨s.drop n, off + n⟩) := by
  unfold readBytes
  by_cases h0 : n = 0
  · rw [if_pos h0, if_pos h0]
  · rw [if_neg h0, if_neg h0, if_pos h]

theorem readHeader_swallows_error {bs : List Nat} {er : HdrErr} (rest : List Nat)
    (off : Nat) (hlen : bs.length = 110) (herr : parseHeader110 bs = .error er) :
    readHeader ⟨bs ++ rest, off⟩ = .ok (none, ⟨rest, off + 110⟩) := by
  unfold readHeader
  rw [readBytes_append (by omega) bs rest off hlen]
  simp only [herr]

/-- C5 counterexample: the claim says a 110-byte block that fails header
decoding propagates its error to the reader's caller and is never turned
into a normal end of iteration; on the code, a stream of 110 `0x41` bytes
(bad magic) makes `read_header` swallow the `ValueError` and return
`None`, so `read_entry` ends exactly as it does on a trailer: no entries,
normal termination, no raised outcome. -/
theorem c5_counterexample :
    parseHeader110 (List.replicate 110 65) = .error .badMagic ∧
    readEntries 2 ⟨List.replicate 110 65, 0⟩ = ([], .finished) := by
  refine ⟨rfl, by decide⟩

/-- C5 amended: a 110-byte block that fails header decoding does not
propagate its error: `read_header` catches the `ValueError`, logs it, and
returns `None`, so with the default `stop_at_trailer=True` the reader ends
iteration normally — indistinguishable from having met the trailer —
whatever bytes follow. -/
theorem c5_amended_decode_error_ends_iteration (bs rest : List Nat)
    (er : HdrErr) (f : Nat) (hlen : bs.length = 110)
    (herr : parseHeader110 bs = .error er) :
    readEntries (f + 1) ⟨bs ++ rest, 0⟩ = ([], .finished) := by
  rw [readEntries, readHeader_swallows_error rest 0 hlen herr]

/-- C5 amended, witnessed on a stream of 110 `0x41` bytes followed by
four zero bytes. -/
theorem c5_witness :
    (List.replicate 110 65 : List Nat).length = 110 ∧
    parseHeader110 (List.replicate 110 65) = .error .badMagic ∧
    readEntries 1 ⟨List.replicate 110 65 ++ [0, 0, 0, 0], 0⟩ = ([], .finished) :=
  ⟨by decide, rfl,
    c5_amended_decode_error_ends_iteration (List.replicate 110 65) [0, 0, 0, 0]
      .badMagic 0 (by decide) rfl⟩

theorem headerBytes_length (h : CPIOHeader) :
    (headerBytes h).length =
      110 + h.name.length + 1 + pad_cpio (110 + h.name.length + 1) := by
  simp [headerBytes, hdr110_length, List.length_append, List.length_replicate]
  omega

theorem headerBytes_aligned (h : CPIOHeader) : (headerBytes h).length % 4 = 0 := by
  rw [headerBytes_length]
  exact pad_cpio_aligns (110 + h.name.length + 1)

theorem writeChunk_decomp (e : CPIOData) :
    writeChunk e = hdr110 e.header ++ (e.header.name ++ [0] ++
      List.replicate (pad_cpio (110 + e.header.name.length + 1)) 0 ++
      (e.data ++ List.replicate (pad_cpio e.data.length) 0)) := by
  unfold writeChunk entryBytes
  have hp : pad_cpio (headerBytes e.header ++ e.data).length =
      pad_cpio e.data.length := by
    rw [List.length_append]
    exact pad_cpio_add_aligned _ (headerBytes_aligned e.header)
  rw [hp]
  simp [headerBytes, List.append_assoc]

theorem readOld_step (e : CPIOData) (hwf : WFEntry e) (rest : List Nat)
    (hrest : 110 ≤ rest.length) (files : List CPIOData) (fuel : Nat) :
    readOld (fuel + 1) (writeChunk e ++ rest) files =
      readOld fuel rest (files ++ [e]) := by
  obtain ⟨hdr, d⟩ := e
  obtain ⟨⟨hb, hnsz, hnz⟩, hfs, hmk, hname⟩ := hwf
  simp only at hb hnsz hnz hfs hmk hname
  have hdecomp : writeChunk ⟨hdr, d⟩ ++ rest =
      hdr110 hdr ++ ((hdr.name ++ [0] ++
        List.replicate (pad_cpio (110 + hdr.name.length + 1)) 0) ++
        ((d ++ List.replicate (pad_cpio d.length) 0) ++ rest)) := by
    rw [writeChunk_decomp]
    simp [List.append_assoc]
  rw [readOld, hdecomp]
  rw [List.take_left' (hdr110_length hdr), List.drop_left' (hdr110_length hdr)]
  rw [parseHeader110_hdr110 ⟨hb, hnsz, hnz⟩ hmk]
  rw [if_neg (by simp [hdr110_length])]
  simp only []
  have hc1 : ¬((hdr.name ++ [0] ++
      List.replicate (pad_cpio (110 + hdr.name.length + 1)) 0 ++
      (d ++ List.replicate (pad_cpio d.length) 0 ++ rest)).length < hdr.namesize) := by
    simp [hnsz, List.length_append]
  rw [if_neg hc1]
  have htk : List.take hdr.namesize (hdr.name ++ [0] ++
      List.replicate (pad_cpio (110 + hdr.name.length + 1)) 0 ++
      (d ++ List.replicate (pad_cpio d.length) 0 ++ rest)) = hdr.name ++ [0] := by
    rw [hnsz, List.append_assoc, List.append_assoc,
      show hdr.name ++ ([0] ++ (List.replicate (pad_cpio (110 + hdr.name.length + 1)) 0 ++
        (d ++ List.replicate (pad_cpio d.length) 0 ++ rest))) =
      (hdr.name ++ [0]) ++ (List.replicate (pad_cpio (110 + hdr.name.length + 1)) 0 ++
        (d ++ List.replicate (pad_cpio d.length) 0 ++ rest)) by simp]
    exact List.take_left' (by simp)
  rw [htk, stripTrailingZeros_append_zero hnz]
  have hdp : List.drop (hdr.namesize + pad_cpio (110 + hdr.namesize))
      (hdr.name ++ [0] ++
        List.replicate (pad_cpio (110 + hdr.name.length + 1)) 0 ++
        (d ++ List.replicate (pad_cpio d.length) 0 ++ rest)) =
      d ++ List.replicate (pad_cpio d.length) 0 ++ rest := by
    rw [hnsz, show 110 + (hdr.name.length + 1) = 110 + hdr.name.length + 1 by omega]
    exact List.drop_left' (by simp [List.length_append]; omega)
  rw [hdp]
  have hc2 : ¬(hdr.filesize ≠ 0 ∧
      (d ++ List.replicate (pad_cpio d.length) 0 ++ rest).length < hdr.filesize) := by
    rw [hfs]
    simp [List.length_append]
  rw [if_neg hc2]
  rw [if_neg hname]
  by_cases hd0 : hdr.filesize = 0
  · have hdnil : d = [] := by
      have : d.length = 0 := by omega
      exact List.length_eq_zero.mp this
    subst hdnil
    rw [if_neg (show ¬(hdr.filesize ≠ 0) by omega),
      if_neg (show ¬(hdr.filesize ≠ 0) by omega)]
    simp only [List.length_nil, show pad_cpio 0 = 0 from rfl, List.replicate_zero,
      List.nil_append]
    rw [if_neg (by omega)]
  · simp only [ne_eq, hd0, not_false_eq_true, if_true]
    have htk2 : List.take hdr.filesize
        (d ++ List.replicate (pad_cpio d.length) 0 ++ rest) = d := by
      rw [hfs, List.append_assoc]
      exact List.take_left' rfl
    have hdp2 : List.drop (hdr.filesize + pad_cpio hdr.filesize)
        (d ++ List.replicate (pad_cpio d.length) 0 ++ rest) = rest := by
      rw [hfs]
      exact List.drop_left' (by simp)
    rw [htk2, hdp2]
    rw [if_neg (by omega)]

theorem readOld_preserves (E : List CPIOData) (junk : List Nat) (er : HdrErr)
    (hwf : ∀ e ∈ E, WFEntry e) (hj : 110 ≤ junk.length)
    (hbad : parseHeader110 (junk.take 110) = .error er) :
    ∀ files, readOld (E.length + 1) (writeMany E ++ junk) files =
      (files ++ E, .raised er) := by
  induction E with
  | nil =>
    intro files
    rw [readOld]
    simp only [writeMany, List.nil_append]
    rw [if_neg (by omega), hbad]
    simp
  | cons e E ih =>
    intro files
    have hwfe : WFEntry e := hwf e (List.mem_cons_self e E)
    have hrest : 110 ≤ (writeMany E ++ junk).length := by
      simp only [List.length_append]; omega
    have hassoc : writeMany (e :: E) ++ junk =
        writeChunk e ++ (writeMany E ++ junk) := by
      simp [writeMany, List.append_assoc]
    rw [show (e :: E).length + 1 = E.length + 1 + 1 by simp, hassoc,
      readOld_step e hwfe _ hrest files (E.length + 1),
      ih (fun x hx => hwf x (List.mem_cons_of_mem e hx)) (files ++ [e])]
    simp

/-- C9 counterexample: the claim says every fully decoded entry before the
failure point is present in the result.  On the code, a stream holding one
complete well-formed entry followed by four zero bytes (a truncated
archive with no trailer) decodes the entry successfully, but `read_cpio`
breaks out of its loop before the `self.files.append(entry)` line, so the
result is empty — the decoded entry is dropped, while the same entry is
returned when at least a full header's worth of bytes follows it. -/
theorem c9_counterexample :
    WFEntry abcEntry ∧
    readOld 3 (writeChunk abcEntry ++ [0, 0, 0, 0]) [] = ([], .eofInfo) ∧
    readOld 3 (writerSession [abcEntry]) [] = ([abcEntry], .normal) := by
  refine ⟨by decide, by decide, by decide⟩

/-- C9 amended: for a corrupted stream made of well-formed encoded entries
followed by at least 110 bytes whose header decode fails, `read_cpio`
keeps every fully decoded entry and then reports the decode error.  The
preservation does not extend to an entry followed by fewer than 110
remaining bytes: that entry is decoded but never appended, and the
condition is only logged, not raised. -/
theorem c9_amended_prefix_preserved_on_decode_error (E : List CPIOData)
    (junk : List Nat) (er : HdrErr) (hwf : ∀ e ∈ E, WFEntry e)
    (hj : 110 ≤ junk.length) (hbad : parseHeader110 (junk.take 110) = .error er) :
    readOld (E.length + 1) (writeMany E ++ junk) [] = (E, .raised er) := by
  simpa using readOld_preserves E junk er hwf hj hbad []

/-- C9 amended, witnessed on the entry `("abc", b"XY")` followed by 110
`0xFF` bytes. -/
theorem c9_witness :
    (∀ e ∈ [abcEntry], WFEntry e) ∧
    110 ≤ (List.replicate 110 255 : List Nat).length ∧
    parseHeader110 ((List.replicate 110 255 : List Nat).take 110) =
      .error .badMagic ∧
    readOld ([abcEntry].length + 1)
      (writeMany [abcEntry] ++ List.replicate 110 255) [] =
      ([abcEntry], .raised .badMagic) :=
  ⟨by decide, by decide, rfl,
    c9_amended_prefix_preserved_on_decode_error [abcEntry]
      (List.replicate 110 255) .badMagic (by decide) (by decide) rfl⟩

/-- C10: the stream reader detects the trailer solely by the mode field's
type bits: whenever the 110 decoded header bytes carry a mode whose type
nibble is empty, `read_header` returns `None` after consuming the name
bytes — without ever comparing the name against `"TRAILER!!!"` — and
`read_entry` ends iteration yielding nothing, whatever the name bytes
are. -/
theorem c10_trailer_detected_by_mode_bits (bs rest : List Nat)
    (raw : CPIOHeader) (f : Nat) (hok : parseHeader110 bs = .ok raw)
    (hmode : modeTypeOf raw.mode = none) (hns : raw.namesize ≤ rest.length) :
    readEntries (f + 1) ⟨bs ++ rest, 0⟩ = ([], .finished) := by
  have hlen : bs.length = 110 := parseHeader110_ok_length hok
  rw [readEntries]
  unfold readHeader
  rw [readBytes_append (by omega) bs rest 0 hlen]
  simp only [hok]
  rw [readBytes_ok_of_le (0 + 110) hns]
  by_cases h0 : raw.namesize = 0
  · simp [h0, hmode]
  · simp [h0, hmode]

/-- C10, witnessed at a header whose mode is 0 (empty type nibble) but
whose name bytes spell `"FOO"`, not `"TRAILER!!!"`: the reader ends with
no entries. -/
theorem c10_witness :
    parseHeader110 (hdr110 fooRaw) = .ok fooRaw ∧
    modeTypeOf fooRaw.mode = none ∧
    fooRaw.namesize ≤ ([70, 79, 79, 0] : List Nat).length ∧
    stripTrailingZeros [70, 79, 79, 0] ≠ trailerName ∧
    readEntries 1 ⟨hdr110 fooRaw ++ [70, 79, 79, 0], 0⟩ = ([], .finished) :=
  ⟨rfl, rfl, by decide, by decide,
    c10_trailer_detected_by_mode_bits (hdr110 fooRaw) [70, 79, 79, 0] fooRaw 0
      rfl rfl (by decide)⟩

end Pycpio
